import Mathlib

/-!
Shallow embedding of `src/index.js` — a schema-less REST gateway over a
document store, plus a webhook-ingestion endpoint that enqueues build jobs.

Documents are JSON-like values.  We model them with a mutual inductive:
`Json` for values and `Fields` for the ordered key/value list of an object
(JavaScript objects preserve insertion order, and assignment to an existing
key updates it in place).
-/

mutual

inductive Json where
  | null : Json
  | bool : Bool → Json
  | num  : Int → Json
  | str  : String → Json
  | date : Nat → Json
  | obj  : Fields → Json
  deriving DecidableEq, Repr

inductive Fields where
  | nil  : Fields
  | cons : String → Json → Fields → Fields
  deriving DecidableEq, Repr

end

namespace Fields

/-- Lookup of a key in an object (JS property read): first binding wins. -/
def get? : Fields → String → Option Json
  | .nil, _ => none
  | .cons k v rest, key => if k = key then some v else get? rest key

/-- JS assignment `o[k] = v`: update in place if the key exists, else append. -/
def set : Fields → String → Json → Fields
  | .nil, key, val => .cons key val .nil
  | .cons k v rest, key, val =>
      if k = key then .cons k val rest else .cons k v (set rest key val)

/-- JS `delete o[k]`. -/
def erase : Fields → String → Fields
  | .nil, _ => .nil
  | .cons k v rest, key =>
      if k = key then erase rest key else .cons k v (erase rest key)

/-- The list of keys of an object, in order. -/
def keys : Fields → List String
  | .nil => []
  | .cons k _ rest => k :: keys rest

/-- Every binding satisfies the (boolean) predicate. -/
def all (p : String → Json → Bool) : Fields → Bool
  | .nil => true
  | .cons k v rest => p k v && all p rest

/-- The keys of `fields` are pairwise distinct (true of any object produced
by `JSON.parse`, whose duplicate keys collapse). -/
def Nodup : Fields → Prop
  | .nil => True
  | .cons k _ rest => k ∉ keys rest ∧ Nodup rest

instance : ∀ f : Fields, Decidable (Nodup f)
  | .nil => .isTrue trivial
  | .cons k _ rest =>
      have := instDecidableNodup rest
      decidable_of_iff (k ∉ keys rest ∧ Nodup rest) Iff.rfl

end Fields

/-- JS truthiness of a value (`undefined`, i.e. an absent property, is handled
at use sites as `Option.none`). -/
def jsTruthy : Json → Bool
  | .null => false
  | .bool b => b
  | .num n => n != 0
  | .str s => s != ""
  | .date _ => true
  | .obj _ => true

/-- JS property read `v[k]` on a value that is itself defined and non-null:
yields the binding for objects and `undefined` (here `none`) otherwise.
(Reading a property *of* `undefined`/`null` throws instead; use sites model
that case explicitly.) -/
def jsGet : Json → String → Option Json
  | .obj fs, k => fs.get? k
  | _, _ => none

/-- The BSON serializer used by the driver stores an `undefined` property
value as `null`. -/
def undefToNull : Option Json → Json
  | none => .null
  | some v => v

/-! ### `str.camelize` (underscore.string)

`camelize(s)` trims the string and replaces every run of `-`, `_` or
whitespace together with the following character (if any) by that character
upper-cased: `camelize("main_resource") = "mainResource"`. -/

def isSepChar (c : Char) : Bool := c = '-' || c = '_' || c.isWhitespace

/-- The replacement pass of `camelize`: a separator run switches the
upper-case flag on, and the next kept character is upper-cased when the flag
is on (the `(.)?` capture of the regex). -/
def camelizeChars (upNext : Bool) : List Char → List Char
  | [] => []
  | c :: rest =>
      if isSepChar c then camelizeChars true rest
      else (if upNext then c.toUpper else c) :: camelizeChars false rest

/-- `trim` removes leading and trailing whitespace. -/
def trimChars (l : List Char) : List Char :=
  ((l.dropWhile Char.isWhitespace).reverse.dropWhile Char.isWhitespace).reverse

def camelize (s : String) : String := ⟨camelizeChars false (trimChars s.toList)⟩

/-- `app.param('mainResource')`: `req.parentField = str.camelize(mainResource) + 'Id'`. -/
def parentField (mainResource : String) : String := camelize mainResource ++ "Id"

/-! ### `_.merge` (lodash)

Deep, right-biased merge: for a key whose values are objects on both sides
the merge recurses; otherwise the source (right) value overwrites.  (Our
`Json` type has no array constructor; documents are nested objects with
scalar leaves, which is the fragment the gateway's documents live in.) -/

mutual

def Json.mergeInto : Json → Json → Json
  | .obj d, .obj s => .obj (Fields.mergeInto d s)
  | _, s => s

def Fields.mergeInto : Fields → Fields → Fields
  | d, .nil => d
  | d, .cons k v rest =>
      Fields.mergeInto
        (d.set k (match d.get? k with
          | some dv => Json.mergeInto dv v
          | none => v))
        rest

end

/-! ### Schema inference (`GET /_collection/:resource`)

The handler folds the streamed documents with
`merged = _.merge({}, merged, doc)` starting from `{}`, then runs
`delete merged._id`, then `schema.fromObject(merged)`. -/

/-- One fold step: `merged = _.merge({}, merged, doc)`. -/
def mergeStep (merged doc : Json) : Json :=
  Json.mergeInto (Json.mergeInto (.obj .nil) merged) doc

/-- The whole fold over the collection's documents in stream order. -/
def mergeAll (docs : List Json) : Json := docs.foldl mergeStep (.obj .nil)

/-- `delete merged._id` (a top-level property delete). -/
def dropRootId : Json → Json
  | .obj fs => .obj (fs.erase "_id")
  | v => v

mutual

/-- Modelled from the spec: `schema.fromObject` lives in `./schema`, which is
not under `src/`.  The spec says the merged object "is converted into a
descriptive shape (a mapping from field path to inferred value type)", so we
model it as the structure-preserving map that replaces each non-object leaf
by the name of its type and recurses through object-valued fields. -/
def schemaFromObject : Json → Json
  | .null => .str "null"
  | .bool _ => .str "boolean"
  | .num _ => .str "number"
  | .str _ => .str "string"
  | .date _ => .str "date"
  | .obj fs => .obj (schemaFromFields fs)

/-- Modelled from the spec: the per-field part of `schema.fromObject`. -/
def schemaFromFields : Fields → Fields
  | .nil => .nil
  | .cons k v rest => .cons k (schemaFromObject v) (schemaFromFields rest)

end

/-- The inferred schema of a collection, exactly as `GET /_collection/:resource`
computes it: fold-merge all documents, delete `_id`, convert to a shape. -/
def inferredSchema (docs : List Json) : Json := schemaFromObject (dropRootId (mergeAll docs))

/-- The top-level key list of a JSON value (empty for non-objects). -/
def topKeys : Json → List String
  | .obj fs => fs.keys
  | _ => []

/-! ### Identifier codec (`app.param('id')`)

The param handler does `req.id = new mongodb.ObjectID(id)` and answers 400
on a constructor throw, before the route handler (and hence any store
operation) runs. -/

def isHexDigitChar (c : Char) : Bool :=
  ('0' ≤ c && c ≤ '9') || ('a' ≤ c && c ≤ 'f') || ('A' ≤ c && c ≤ 'F')

/-- Modelled from the spec: the `ObjectID` constructor belongs to the mongodb
driver, not to `src/`; per the spec the codec "accepts exactly the store's
12-raw-byte form or a 24-character hexadecimal string; any other input fails
with an `InvalidIdentifier` error". -/
def validObjectId (s : String) : Bool :=
  s.length == 12 || (s.length == 24 && s.toList.all isHexDigitChar)

/-- Modelled from the spec: conversion of the textual identifier to the
store-native identifier; `none` is the constructor throw. -/
def parseObjectId (s : String) : Option String :=
  if validObjectId s then some s else none

/-- Body of the 400 response sent by `app.param('id')`. -/
def invalidIdBody : Json :=
  .obj (.cons "error" (.bool true)
       (.cons "message" (.str "ID must be a single String of 12 bytes or a string of 24 hex character") .nil))

/-- Result of a non-streaming route: HTTP status, response body, and the
state of the collection afterwards. -/
structure WriteResult where
  status : Nat
  resBody : Option Json
  coll : List Json
  deriving DecidableEq, Repr

/-- Result of a streaming list route: HTTP status and the documents written
to the response. -/
structure ListResult where
  status : Nat
  docs : List Json
  deriving DecidableEq, Repr

/-- `app.param('id')` composed with a downstream single-document route:
a malformed identifier is answered 400 before the handler runs, so no store
operation is performed; a valid one reaches the handler converted. -/
def handleIdRoute (idText : String) (coll : List Json) (handler : Json → WriteResult) : WriteResult :=
  match parseObjectId idText with
  | none => ⟨400, some invalidIdBody, coll⟩
  | some s => handler (.str s)

/-! ### Document store adapter

The store itself is an external collaborator ("assumed to expose
find/insert/update/remove/count and cursor-based streaming", spec §1); we
model a collection as the list of its documents in insertion order, an
equality filter as mongo evaluates one, and fallibility of each store call
by a boolean parameter. -/

/-- A document matches an equality filter iff every filter binding equals the
document's value at that key. -/
def matchesFilter (filter : Fields) (doc : Json) : Bool :=
  filter.all fun k v => decide (jsGet doc k = some v)

/-- `collection.find(filter)`, with the cursor already drained to a list. -/
def findDocs (filter : Fields) (coll : List Json) : List Json :=
  coll.filter (matchesFilter filter)

/-- `doc._id === id`. -/
def idMatches (id : Json) (doc : Json) : Bool :=
  decide (jsGet doc "_id" = some id)

/-- `collection.remove(query, {single: true})`: remove the first matching
document; also report how many documents were removed. -/
def removeFirst (p : Json → Bool) : List Json → List Json × Nat
  | [] => ([], 0)
  | d :: rest =>
      if p d then (rest, 1)
      else
        let r := removeFirst p rest
        (d :: r.1, r.2)

/-- `collection.update(query, doc)` (full replace, no upsert): replace the
first matching document; the store keeps the matched document's `_id`. -/
def replaceFirst (p : Json → Bool) (newDoc : Json) : List Json → List Json
  | [] => []
  | d :: rest => if p d then newDoc :: rest else d :: replaceFirst p newDoc rest

/-- `req.body.createdAt = new Date(); req.body.updatedAt = req.body.createdAt`. -/
def stampTimestamps (b : Fields) (now : Nat) : Fields :=
  (b.set "createdAt" (.date now)).set "updatedAt" (.date now)

/-! ### Generic resource routes

Request bodies are produced by `bodyParser.json()`: present bodies are JSON
objects (`Fields`); an absent body leaves `req.body` undefined (`none`).
The driver-side `_id` assignment on insert is store behaviour and is not
modelled; an insert appends the document passed to it. -/

/-- `GET /:resource` — stream all documents matching the query-string filter. -/
def listHandler (findOk : Bool) (query : Fields) (coll : List Json) : ListResult :=
  if findOk then ⟨200, findDocs query coll⟩ else ⟨500, []⟩

/-- `GET /:mainResource/:id/:resource` — the filter is the query string plus
`filter[req.parentField] = req.id`. -/
def nestedListHandler (findOk : Bool) (mainResource : String) (id : Json)
    (query : Fields) (coll : List Json) : ListResult :=
  listHandler findOk (query.set (parentField mainResource) id) coll

/-- `POST /:resource` — 400 on missing body, else stamp timestamps and insert. -/
def postHandler (insertOk : Bool) (now : Nat) (body : Option Fields)
    (coll : List Json) : WriteResult :=
  match body with
  | none => ⟨400, none, coll⟩
  | some b =>
      let d : Json := .obj (stampTimestamps b now)
      if insertOk then ⟨200, some d, coll ++ [d]⟩ else ⟨500, none, coll⟩

/-- The child document `POST /:mainResource/:id/:resource` inserts:
`req.body[req.parentField] = req.id`, then the timestamp stamps. -/
def childDoc (mainResource : String) (id : Json) (b : Fields) (now : Nat) : Json :=
  .obj (stampTimestamps (b.set (parentField mainResource) id) now)

/-- `POST /:mainResource/:id/:resource` — 400 on missing body, else set the
parent-linkage field, stamp timestamps and insert. -/
def nestedPostHandler (insertOk : Bool) (now : Nat) (mainResource : String) (id : Json)
    (body : Option Fields) (coll : List Json) : WriteResult :=
  match body with
  | none => ⟨400, none, coll⟩
  | some b =>
      let d := childDoc mainResource id b now
      if insertOk then ⟨200, some d, coll ++ [d]⟩ else ⟨500, none, coll⟩

/-- The document a `PUT /:resource/:id` stores: the body with any
client-supplied `_id` deleted and `updatedAt` set to now; the store's full
replace keeps the matched document's `_id`, which is the route's `id`. -/
def replacementDoc (id : Json) (b : Fields) (now : Nat) : Json :=
  .obj (.cons "_id" id ((b.erase "_id").set "updatedAt" (.date now)))

/-- `PUT /:resource/:id` — 400 on missing body; else `delete req.body._id`,
set `updatedAt`, full replace keyed by `_id`; 204 with no body on success,
500 on store error. -/
def putHandler (updateOk : Bool) (now : Nat) (id : Json) (body : Option Fields)
    (coll : List Json) : WriteResult :=
  match body with
  | none => ⟨400, none, coll⟩
  | some b =>
      if updateOk then ⟨204, none, replaceFirst (idMatches id) (replacementDoc id b now) coll⟩
      else ⟨500, none, coll⟩

/-- `DELETE /:resource/:id` — remove at most one document matching the
identifier: 500 on store error, 404 when zero documents were removed, 204
when one was. -/
def deleteHandler (removeOk : Bool) (id : Json) (coll : List Json) : WriteResult :=
  if removeOk then
    let r := removeFirst (idMatches id) coll
    if r.2 = 0 then ⟨404, none, coll⟩ else ⟨204, none, r.1⟩
  else ⟨500, none, coll⟩

/-! ### Webhook ingestor (`POST /_hook/:endpoint?`) -/

/-- The two collections the webhook route touches. -/
structure HookState where
  hooks : List Json
  buildqueue : List Json
  deriving DecidableEq, Repr

/-- The terminal result of one webhook request: an HTTP response with the
resulting store state, or an unhandled exception (no response is sent). -/
inductive HookOutcome where
  | resp (status : Nat) (st : HookState)
  | crash (st : HookState)
  deriving DecidableEq, Repr

/-- The store state an outcome leaves behind. -/
def HookOutcome.state : HookOutcome → HookState
  | .resp _ st => st
  | .crash st => st

/-- The build job built from a master-push payload.  `repo` is the payload's
`repository` value (property reads on it yield `undefined`, stored as `null`,
when it is not an object); `commit` models
`req.body.head_commit && req.body.head_commit.id`. -/
def buildJob (repo : Json) (body : Json) (endpoint : Option String) (now : Nat) : Json :=
  .obj (.cons "fullName" (undefToNull (jsGet repo "full_name"))
       (.cons "name" (undefToNull (jsGet repo "name"))
       (.cons "repo" (undefToNull (jsGet repo "clone_url"))
       (.cons "commit" (match jsGet body "head_commit" with
          | none => .null
          | some hc => if jsTruthy hc then undefToNull (jsGet hc "id") else hc)
       (.cons "endpoint" (undefToNull (endpoint.map Json.str))
       (.cons "createdAt" (.date now)
       (.cons "buildAt" .null
       (.cons "nrOfAttempts" (.num 0)
       (.cons "isSuccessful" (.bool false)
       (.cons "message" .null
       (.cons "pusher" (undefToNull (jsGet body "pusher")) .nil)))))))))))

/-- The webhook route.  The raw payload is inserted into `_hook` first; on
insert failure the request ends with 500.  Then `if (!req.body.ref)` answers
204 (absent or falsy `ref`), a `ref` different from `refs/heads/master`
answers 204, and otherwise the build job is constructed — reading
`req.body.repository.full_name` throws when `repository` is `undefined` or
`null` — and inserted into `buildqueue`: 201 on success, 500 on failure. -/
def webhookHandler (hookInsertOk buildInsertOk : Bool) (endpoint : Option String)
    (now : Nat) (body : Json) (st : HookState) : HookOutcome :=
  if !hookInsertOk then .resp 500 st
  else
    let st1 : HookState := ⟨st.hooks ++ [body], st.buildqueue⟩
    match jsGet body "ref" with
    | none => .resp 204 st1
    | some r =>
        if !jsTruthy r then .resp 204 st1
        else if r ≠ Json.str "refs/heads/master" then .resp 204 st1
        else
          match jsGet body "repository" with
          | none => .crash st1
          | some .null => .crash st1
          | some repo =>
              if buildInsertOk then
                .resp 201 ⟨st1.hooks, st1.buildqueue ++ [buildJob repo body endpoint now]⟩
              else .resp 500 st1

/-- The value the deep merge gives one key, as a function of the two sides'
values at that key: a key absent in the source keeps the destination's value;
a key present in the source merges recursively when both values are objects
and otherwise takes the source's value. -/
def mergedValue (dv sv : Option Json) : Option Json :=
  match sv with
  | none => dv
  | some sv =>
      some (match dv with
        | some dv => Json.mergeInto dv sv
        | none => sv)

/-! ### Lemmas about the embedded operations -/

theorem Fields.get?_set_self : ∀ (f : Fields) (k : String) (v : Json),
    (f.set k v).get? k = some v
  | .nil, k, v => by simp [Fields.set, Fields.get?]
  | .cons k0 v0 rest, k, v => by
      by_cases h : k0 = k
      · simp [Fields.set, h, Fields.get?]
      · simp [Fields.set, h, Fields.get?, Fields.get?_set_self rest k v]

theorem Fields.get?_set_ne : ∀ (f : Fields) (k : String) (v : Json) (k' : String),
    k' ≠ k → (f.set k v).get? k' = f.get? k'
  | .nil, k, v, k', h => by
      simp [Fields.set, Fields.get?]
      intro hk; exact absurd hk.symm h
  | .cons k0 v0 rest, k, v, k', h => by
      by_cases h0 : k0 = k
      · subst h0
        have hne : k0 ≠ k' := fun he => h he.symm
        simp [Fields.set, Fields.get?, hne]
      · simp [Fields.set, h0, Fields.get?]
        by_cases h1 : k0 = k'
        · simp [h1]
        · simp [h1, Fields.get?_set_ne rest k v k' h]

theorem Fields.get?_erase_ne : ∀ (f : Fields) (k k' : String),
    k' ≠ k → (f.erase k).get? k' = f.get? k'
  | .nil, k, k', _ => rfl
  | .cons k0 v0 rest, k, k', h => by
      by_cases h0 : k0 = k
      · subst h0
        have hne : k0 ≠ k' := fun he => h he.symm
        simp [Fields.erase, Fields.get?, hne, Fields.get?_erase_ne rest k0 k' h]
      · simp [Fields.erase, h0, Fields.get?]
        by_cases h1 : k0 = k'
        · simp [h1]
        · simp [h1, Fields.get?_erase_ne rest k k' h]

theorem Fields.get?_eq_none_of_not_mem_keys : ∀ (f : Fields) (k : String),
    k ∉ f.keys → f.get? k = none
  | .nil, _, _ => rfl
  | .cons k0 v0 rest, k, h => by
      simp [Fields.keys] at h
      simp [Fields.get?, Ne.symm h.1, Fields.get?_eq_none_of_not_mem_keys rest k h.2]

theorem Fields.not_mem_keys_erase : ∀ (f : Fields) (k : String), k ∉ (f.erase k).keys
  | .nil, _ => by simp [Fields.erase, Fields.keys]
  | .cons k0 v0 rest, k => by
      by_cases h0 : k0 = k
      · simpa [Fields.erase, h0] using Fields.not_mem_keys_erase rest k
      · simp [Fields.erase, h0, Fields.keys]
        exact ⟨fun hk => absurd hk.symm h0, Fields.not_mem_keys_erase rest k⟩

theorem Fields.all_get? {p : String → Json → Bool} : ∀ {f : Fields} {k : String} {v : Json},
    f.all p = true → f.get? k = some v → p k v = true
  | .cons k0 v0 rest, k, v, hall, hget => by
      rw [Fields.all, Bool.and_eq_true] at hall
      rw [Fields.get?] at hget
      by_cases h0 : k0 = k
      · subst h0
        simp at hget
        exact hget ▸ hall.1
      · rw [if_neg h0] at hget
        exact Fields.all_get? hall.2 hget

theorem keys_schemaFromFields : ∀ f : Fields, (schemaFromFields f).keys = f.keys
  | .nil => rfl
  | .cons k v rest => by
      simp [schemaFromFields, Fields.keys, keys_schemaFromFields rest]

theorem Fields.mergeInto_get? : ∀ (s d : Fields) (k : String), s.Nodup →
    (Fields.mergeInto d s).get? k = mergedValue (d.get? k) (s.get? k)
  | .nil, d, k, _ => by simp [Fields.mergeInto, Fields.get?, mergedValue]
  | .cons k0 v0 rest, d, k, h => by
      obtain ⟨hk0, hrest⟩ := h
      rw [show Fields.mergeInto d (.cons k0 v0 rest)
            = Fields.mergeInto
                (d.set k0 (match d.get? k0 with
                  | some dv => Json.mergeInto dv v0
                  | none => v0)) rest from rfl]
      rw [Fields.mergeInto_get? rest _ k hrest]
      by_cases hk : k0 = k
      · subst hk
        rw [Fields.get?_eq_none_of_not_mem_keys rest k0 hk0, Fields.get?_set_self]
        have h2 : (Fields.cons k0 v0 rest).get? k0 = some v0 := by simp [Fields.get?]
        rw [h2]
        cases d.get? k0 <;> simp [mergedValue]
      · rw [Fields.get?_set_ne d k0 _ k fun he => hk he.symm]
        have h3 : (Fields.cons k0 v0 rest).get? k = rest.get? k := by
          simp [Fields.get?, hk]
        rw [h3]

theorem removeFirst_spec (p : Json → Bool) : ∀ l : List Json,
    (removeFirst p l).2 ≤ 1 ∧ (removeFirst p l).1.length + (removeFirst p l).2 = l.length ∧
      ((removeFirst p l).2 = 0 ↔ ∀ d ∈ l, p d = false)
  | [] => by simp [removeFirst]
  | a :: rest => by
      obtain ⟨ih1, ih2, ih3⟩ := removeFirst_spec p rest
      by_cases h : p a
      · refine ⟨by simp [removeFirst, h], by simp [removeFirst, h], ?_⟩
        simp [removeFirst, h]
      · refine ⟨by simpa [removeFirst, h] using ih1, ?_, ?_⟩
        · simp [removeFirst, h, List.length_cons]
          omega
        · simp [removeFirst, h, ih3, List.forall_mem_cons]

theorem mem_replaceFirst_of_not (p : Json → Bool) (nd : Json) :
    ∀ (l : List Json) (d : Json), d ∈ l → p d = false → d ∈ replaceFirst p nd l
  | a :: rest, d, hmem, hp => by
      by_cases ha : p a
      · rw [replaceFirst, if_pos ha]
        rcases List.mem_cons.mp hmem with h | h
        · subst h; rw [hp] at ha; cases ha
        · exact List.mem_cons_of_mem _ h
      · rw [replaceFirst, if_neg ha]
        rcases List.mem_cons.mp hmem with h | h
        · exact h ▸ List.mem_cons_self _ _
        · exact List.mem_cons_of_mem _ (mem_replaceFirst_of_not p nd rest d h hp)

theorem append_Id_ne (t : String) (ht : ¬ List.IsSuffix ['I', 'd'] t.data)
    (x : String) : x ++ "Id" ≠ t := by
  intro h
  apply ht
  have hd : x.data ++ "Id".data = t.data := by rw [← String.data_append, h]
  have hid : "Id".data = ['I', 'd'] := by decide
  rw [hid] at hd
  exact ⟨x.data, hd⟩

theorem parentField_ne_createdAt (m : String) : parentField m ≠ "createdAt" :=
  append_Id_ne _ (by decide) _

theorem parentField_ne_updatedAt (m : String) : parentField m ≠ "updatedAt" :=
  append_Id_ne _ (by decide) _

/-! ### Claim theorems -/

/-- A master-push payload that carries no `repository` field. -/
def masterPushNoRepo : Json := .obj (.cons "ref" (.str "refs/heads/master") .nil)

/-- A well-formed master-push payload's `repository` value. -/
def exRepo : Json :=
  .obj (.cons "full_name" (.str "octo/repo")
       (.cons "name" (.str "repo")
       (.cons "clone_url" (.str "https://example/repo.git") .nil)))

/-- A well-formed master-push payload. -/
def masterPushFull : Json :=
  .obj (.cons "ref" (.str "refs/heads/master") (.cons "repository" exRepo .nil))

/-- C2: the raw payload is recorded in the webhook-record collection before
any `ref` inspection: when that insert fails the response is 500 with neither
collection changed (in particular no build job is inserted), and when it
succeeds the state of every possible outcome carries the payload appended to
the record collection. -/
theorem c2_record_first (buildInsertOk : Bool) (endpoint : Option String)
    (now : Nat) (body : Json) (st : HookState) :
    webhookHandler false buildInsertOk endpoint now body st = .resp 500 st ∧
    (webhookHandler true buildInsertOk endpoint now body st).state.hooks
      = st.hooks ++ [body] := by
  refine ⟨rfl, ?_⟩
  have hmaster : jsTruthy (Json.str "refs/heads/master") = true := by decide
  unfold webhookHandler
  cases hr : jsGet body "ref" with
  | none => simp [hr, HookOutcome.state]
  | some r =>
      by_cases ht : jsTruthy r
      · by_cases hm : r = Json.str "refs/heads/master"
        · subst hm
          cases hrepo : jsGet body "repository" with
          | none => simp [hr, hmaster, hrepo, HookOutcome.state]
          | some repo =>
              cases repo <;> cases buildInsertOk <;>
                simp [hr, hmaster, hrepo, HookOutcome.state]
        · simp [hr, ht, hm, HookOutcome.state]
      · simp [hr, ht, HookOutcome.state]

/-- C1 counterexample: the payload `{"ref": "refs/heads/master"}` (no
`repository` field) has a successful record-insert and `ref` equal to
`refs/heads/master`, yet the request ends in an unhandled exception with the
build queue still empty — not in a 201 response with one enqueued job. -/
theorem c1_counterexample :
    webhookHandler true true none 0 masterPushNoRepo ⟨[], []⟩ =
      .crash ⟨[masterPushNoRepo], []⟩ := by decide

/-- C1 (amended): for every webhook payload whose record-insert succeeds:
with no `ref` field the response is 204 and no build job is inserted; with a
`ref` different from `refs/heads/master` the response is 204 and no build job
is inserted; with `ref` equal to `refs/heads/master` — provided the payload's
`repository` field is present and non-null, without which the handler throws
instead (see C10) — exactly one build job is inserted into the build queue,
with `buildAt` null and `nrOfAttempts` 0, and the response on insert success
is 201. -/
theorem c1_webhook_branching (buildInsertOk : Bool) (endpoint : Option String)
    (now : Nat) (body : Json) (st : HookState) :
    (jsGet body "ref" = none →
      webhookHandler true buildInsertOk endpoint now body st =
        .resp 204 ⟨st.hooks ++ [body], st.buildqueue⟩) ∧
    (∀ r, jsGet body "ref" = some r → r ≠ Json.str "refs/heads/master" →
      webhookHandler true buildInsertOk endpoint now body st =
        .resp 204 ⟨st.hooks ++ [body], st.buildqueue⟩) ∧
    (∀ repo, jsGet body "ref" = some (Json.str "refs/heads/master") →
      jsGet body "repository" = some repo → repo ≠ Json.null →
      webhookHandler true true endpoint now body st =
        .resp 201 ⟨st.hooks ++ [body], st.buildqueue ++ [buildJob repo body endpoint now]⟩ ∧
      jsGet (buildJob repo body endpoint now) "buildAt" = some Json.null ∧
      jsGet (buildJob repo body endpoint now) "nrOfAttempts" = some (Json.num 0)) := by
  refine ⟨?_, ?_, ?_⟩
  · intro hr
    unfold webhookHandler
    simp [hr]
  · intro r hr hne
    unfold webhookHandler
    by_cases ht : jsTruthy r
    · simp [hr, ht, hne]
    · simp [hr, ht]
  · intro repo hr hrepo hnn
    have hmaster : jsTruthy (Json.str "refs/heads/master") = true := by decide
    refine ⟨?_, ?_, ?_⟩
    · unfold webhookHandler
      cases repo with
      | null => exact absurd rfl hnn
      | bool b => simp [hr, hrepo, hmaster]
      | num n => simp [hr, hrepo, hmaster]
      | str s => simp [hr, hrepo, hmaster]
      | date t => simp [hr, hrepo, hmaster]
      | obj fs => simp [hr, hrepo, hmaster]
    · simp [buildJob, jsGet, Fields.get?]
    · simp [buildJob, jsGet, Fields.get?]

/-- C1 witness: the amended claim evaluated on a well-formed master-push
payload: the response is 201 and the build queue gains exactly one job whose
`buildAt` is null and whose `nrOfAttempts` is 0. -/
theorem c1_webhook_witness :
    webhookHandler true true none 5 masterPushFull ⟨[], []⟩ =
      .resp 201 ⟨[masterPushFull], [buildJob exRepo masterPushFull none 5]⟩ ∧
    jsGet (buildJob exRepo masterPushFull none 5) "buildAt" = some Json.null ∧
    jsGet (buildJob exRepo masterPushFull none 5) "nrOfAttempts" = some (Json.num 0) := by
  have h := (c1_webhook_branching true none 5 masterPushFull ⟨[], []⟩).2.2 exRepo
    (by decide) (by decide) (by decide)
  simpa using h

/-- C10: a payload whose `ref` is `refs/heads/master` but whose `repository`
is absent (or null) drives the build-job construction into an unhandled
exception — no 4xx/5xx response is produced and no build job is inserted —
because only `head_commit` is guarded: whenever `head_commit` is missing the
constructed job simply carries a null `commit`. -/
theorem c10_repository_precondition (buildInsertOk : Bool) (endpoint : Option String)
    (now : Nat) (body : Json) (st : HookState) :
    (jsGet body "ref" = some (Json.str "refs/heads/master") →
      (jsGet body "repository" = none ∨ jsGet body "repository" = some Json.null) →
      webhookHandler true buildInsertOk endpoint now body st =
        .crash ⟨st.hooks ++ [body], st.buildqueue⟩) ∧
    (∀ repo, jsGet body "head_commit" = none →
      jsGet (buildJob repo body endpoint now) "commit" = some Json.null) := by
  constructor
  · intro hr hrepo
    have hmaster : jsTruthy (Json.str "refs/heads/master") = true := by decide
    unfold webhookHandler
    rcases hrepo with h | h <;> simp [hr, hmaster, h]
  · intro repo hc
    unfold buildJob
    rw [hc]
    simp [jsGet, Fields.get?]

/-- C10 witness: the hazard evaluated on the concrete payload
`{"ref": "refs/heads/master"}` with a non-empty record collection, and the
`head_commit` guard evaluated on the same payload. -/
theorem c10_witness :
    webhookHandler true true (some "ep") 7 masterPushNoRepo ⟨[Json.null], []⟩ =
      .crash ⟨[Json.null, masterPushNoRepo], []⟩ ∧
    jsGet (buildJob (Json.obj .nil) masterPushNoRepo (some "ep") 7) "commit" =
      some Json.null := by
  have h := c10_repository_precondition true (some "ep") 7 masterPushNoRepo ⟨[Json.null], []⟩
  exact ⟨h.1 (by decide) (Or.inl (by decide)), h.2 (Json.obj .nil) (by decide)⟩

/-- C3: schema inference folds the document stream into one accumulator by a
deep, right-biased merge — at any key, the source's value recursively merges
when both sides' values are objects and otherwise overwrites, while keys the
source lacks keep the accumulator's value — then `_id` is removed before the
conversion to a shape, so no inferred schema has a top-level `_id` key; on
the documents `{"a":1}` then `{"a":"x","b":2}` (with their store `_id`s) the
inferred schema has exactly the top-level keys `a` and `b`. -/
theorem c3_schema_inference :
    (∀ (d s : Fields) (k : String), s.Nodup →
      (Fields.mergeInto d s).get? k = mergedValue (d.get? k) (s.get? k)) ∧
    (∀ dv sv : Json, (∀ df, dv ≠ Json.obj df) ∨ (∀ sf, sv ≠ Json.obj sf) →
      Json.mergeInto dv sv = sv) ∧
    (∀ df sf : Fields,
      Json.mergeInto (Json.obj df) (Json.obj sf) = Json.obj (Fields.mergeInto df sf)) ∧
    (∀ docs : List Json, "_id" ∉ topKeys (inferredSchema docs)) ∧
    topKeys (inferredSchema
      [Json.obj (Fields.cons "_id" (Json.str "id1") (Fields.cons "a" (Json.num 1) Fields.nil)),
       Json.obj (Fields.cons "_id" (Json.str "id2")
         (Fields.cons "a" (Json.str "x") (Fields.cons "b" (Json.num 2) Fields.nil)))])
      = ["a", "b"] := by
  refine ⟨fun d s k h => Fields.mergeInto_get? s d k h, ?_, fun df sf => rfl, ?_, by decide⟩
  · intro dv sv h
    cases dv with
    | obj df =>
        cases sv with
        | obj sf =>
            rcases h with h | h
            · exact absurd rfl (h df)
            · exact absurd rfl (h sf)
        | null => rfl
        | bool b => rfl
        | num n => rfl
        | str s => rfl
        | date t => rfl
    | null => cases sv <;> rfl
    | bool b => cases sv <;> rfl
    | num n => cases sv <;> rfl
    | str s => cases sv <;> rfl
    | date t => cases sv <;> rfl
  · intro docs
    show "_id" ∉ topKeys (schemaFromObject (dropRootId (mergeAll docs)))
    cases hm : mergeAll docs with
    | obj fs =>
        simp only [dropRootId, schemaFromObject, topKeys, keys_schemaFromFields]
        exact Fields.not_mem_keys_erase fs "_id"
    | null => simp [dropRootId, schemaFromObject, topKeys]
    | bool b => simp [dropRootId, schemaFromObject, topKeys]
    | num n => simp [dropRootId, schemaFromObject, topKeys]
    | str s => simp [dropRootId, schemaFromObject, topKeys]
    | date t => simp [dropRootId, schemaFromObject, topKeys]

/-- C3 witness: the merge characterization applied at the key `a` of the two
example documents' field lists (scalar on both sides, so the later value
overwrites), and the overwrite rule applied to those scalars. -/
theorem c3_witness :
    (Fields.mergeInto (Fields.cons "a" (Json.num 1) Fields.nil)
        (Fields.cons "a" (Json.str "x") (Fields.cons "b" (Json.num 2) Fields.nil))).get? "a"
      = mergedValue ((Fields.cons "a" (Json.num 1) Fields.nil).get? "a")
          ((Fields.cons "a" (Json.str "x") (Fields.cons "b" (Json.num 2) Fields.nil)).get? "a") ∧
    Json.mergeInto (Json.num 1) (Json.str "x") = Json.str "x" :=
  ⟨c3_schema_inference.1 (Fields.cons "a" (Json.num 1) Fields.nil)
      (Fields.cons "a" (Json.str "x") (Fields.cons "b" (Json.num 2) Fields.nil)) "a" (by decide),
   c3_schema_inference.2.1 (Json.num 1) (Json.str "x")
      (Or.inl fun df h => Json.noConfusion h)⟩

/-- C4: a textual `:id` that is neither a 12-character raw identifier nor a
24-character hexadecimal string makes the identifier codec fail, and the
route answers 400 with the invalid-identifier message before the downstream
handler runs — the collection is untouched whatever that handler does — while
every valid identifier converts to a store-native identifier without error
and is handed to the handler. -/
theorem c4_id_validation (s : String) (coll : List Json) (handler : Json → WriteResult) :
    (¬ (s.length = 12 ∨ (s.length = 24 ∧ s.toList.all isHexDigitChar = true)) →
      parseObjectId s = none ∧
      handleIdRoute s coll handler = ⟨400, some invalidIdBody, coll⟩) ∧
    ((s.length = 12 ∨ (s.length = 24 ∧ s.toList.all isHexDigitChar = true)) →
      parseObjectId s = some s ∧
      handleIdRoute s coll handler = handler (Json.str s)) := by
  have hv : validObjectId s = true ↔
      (s.length = 12 ∨ (s.length = 24 ∧ s.toList.all isHexDigitChar = true)) := by
    simp [validObjectId, Bool.or_eq_true, Bool.and_eq_true, beq_iff_eq]
  constructor
  · intro h
    cases hb : validObjectId s with
    | true => exact absurd (hv.mp hb) h
    | false => simp [parseObjectId, hb, handleIdRoute]
  · intro h
    have hb : validObjectId s = true := hv.mpr h
    simp [parseObjectId, hb, handleIdRoute]

/-- C4 witness: a malformed identifier is answered 400 with the collection
untouched, and a valid 24-hex identifier reaches the handler converted. -/
theorem c4_witness :
    handleIdRoute "not-an-id" [Json.null] (fun j => ⟨200, some j, []⟩)
      = ⟨400, some invalidIdBody, [Json.null]⟩ ∧
    handleIdRoute "0123456789abcdef01234567" [Json.null] (fun j => ⟨200, some j, []⟩)
      = ⟨200, some (Json.str "0123456789abcdef01234567"), []⟩ := by
  refine ⟨((c4_id_validation "not-an-id" [Json.null] _).1 (by decide)).2, ?_⟩
  rw [((c4_id_validation "0123456789abcdef01234567" [Json.null] _).2 (by decide)).2]

/-- C5: under a parent path segment `mainResource` with parent identifier
`id`, the created child document carries the field
`camelize(mainResource) + "Id"` set to the parent identifier (set before the
timestamp stamps, whose keys cannot equal a name ending in `Id`), and the
nested list queries with the request's query parameters plus that field equal
to the parent identifier, so every listed document's parent-linkage field
equals the parent identifier and every query binding at another key holds of
it as well. -/
theorem c5_nested (m : String) (id : Json) (b q : Fields) (coll : List Json) (now : Nat) :
    nestedPostHandler true now m id (some b) coll =
      ⟨200, some (childDoc m id b now), coll ++ [childDoc m id b now]⟩ ∧
    jsGet (childDoc m id b now) (parentField m) = some id ∧
    nestedListHandler true m id q coll = ⟨200, findDocs (q.set (parentField m) id) coll⟩ ∧
    (∀ d ∈ (nestedListHandler true m id q coll).docs,
      jsGet d (parentField m) = some id ∧
      (∀ k v, k ≠ parentField m → q.get? k = some v → jsGet d k = some v)) := by
  refine ⟨rfl, ?_, rfl, ?_⟩
  · show ((((b.set (parentField m) id).set "createdAt" (Json.date now)).set
        "updatedAt" (Json.date now)).get? (parentField m)) = some id
    rw [Fields.get?_set_ne _ _ _ _ (parentField_ne_updatedAt m),
        Fields.get?_set_ne _ _ _ _ (parentField_ne_createdAt m),
        Fields.get?_set_self]
  · intro d hd
    have hmem : d ∈ findDocs (q.set (parentField m) id) coll := by
      simpa [nestedListHandler, listHandler] using hd
    have hmatch : matchesFilter (q.set (parentField m) id) d = true :=
      (List.mem_filter.mp hmem).2
    rw [matchesFilter] at hmatch
    constructor
    · exact of_decide_eq_true (Fields.all_get? hmatch (Fields.get?_set_self q _ id))
    · intro k v hk hq
      have hq' : (q.set (parentField m) id).get? k = some v := by
        rw [Fields.get?_set_ne _ _ _ _ hk]; exact hq
      exact of_decide_eq_true (Fields.all_get? hmatch hq')

/-- A concrete child document created under `/repos/p1/issues`. -/
def exChild : Json := childDoc "repos" (Json.str "p1") (Fields.cons "t" (Json.num 1) Fields.nil) 4

/-- C5 witness: on a store containing exactly the child document created
under parent `p1` of `repos`, the nested listing returns it and its `reposId`
field equals the parent identifier. -/
theorem c5_witness :
    jsGet exChild (parentField "repos") = some (Json.str "p1") ∧
    jsGet exChild "reposId" = some (Json.str "p1") :=
  have h := (c5_nested "repos" (Json.str "p1") (Fields.cons "t" (Json.num 1) Fields.nil)
      Fields.nil [exChild] 4).2.2.2 exChild (by decide)
  ⟨h.1, by have h2 := h.1; rwa [show parentField "repos" = "reposId" from by decide] at h2⟩

/-- C6: `PUT /:resource/:id` with a body stores a replacement document whose
`_id` is the original identifier whatever `_id` the client body carried,
whose `updatedAt` is the request time, and whose every other field comes from
the body; the replace is keyed on the identifier — documents with a different
`_id` survive untouched — and the response is 204 with no body on store
success, 500 with the collection unchanged on store failure. -/
theorem c6_replace (now : Nat) (id : Json) (b : Fields) (coll : List Json) :
    putHandler true now id (some b) coll =
      ⟨204, none, replaceFirst (idMatches id) (replacementDoc id b now) coll⟩ ∧
    jsGet (replacementDoc id b now) "_id" = some id ∧
    jsGet (replacementDoc id b now) "updatedAt" = some (Json.date now) ∧
    (∀ k, k ≠ "_id" → k ≠ "updatedAt" → jsGet (replacementDoc id b now) k = b.get? k) ∧
    (∀ d ∈ coll, idMatches id d = false → d ∈ (putHandler true now id (some b) coll).coll) ∧
    putHandler false now id (some b) coll = ⟨500, none, coll⟩ := by
  refine ⟨rfl, by simp [replacementDoc, jsGet, Fields.get?], ?_, ?_, ?_, rfl⟩
  · show (Fields.cons "_id" id ((b.erase "_id").set "updatedAt" (Json.date now))).get?
        "updatedAt" = some (Json.date now)
    rw [Fields.get?]
    simp [Fields.get?_set_self]
  · intro k hk1 hk2
    show (Fields.cons "_id" id ((b.erase "_id").set "updatedAt" (Json.date now))).get? k
        = b.get? k
    rw [Fields.get?, if_neg fun he => hk1 he.symm,
        Fields.get?_set_ne _ _ _ _ hk2, Fields.get?_erase_ne _ _ _ hk1]
  · intro d hd hne
    exact mem_replaceFirst_of_not _ _ coll d hd hne

/-- C6 witness: replacing document `x` with a body that smuggles in a foreign
`_id`: the stored document keeps `_id = x`, gets `updatedAt` stamped, keeps
the body's `name`, and the unrelated document `z` survives. -/
theorem c6_witness :
    jsGet (replacementDoc (Json.str "x")
        (Fields.cons "_id" (Json.str "y") (Fields.cons "name" (Json.str "bar") Fields.nil)) 3)
        "name" = some (Json.str "bar") ∧
    Json.obj (Fields.cons "_id" (Json.str "z") Fields.nil) ∈
      (putHandler true 3 (Json.str "x")
        (some (Fields.cons "_id" (Json.str "y") (Fields.cons "name" (Json.str "bar") Fields.nil)))
        [Json.obj (Fields.cons "_id" (Json.str "z") Fields.nil)]).coll :=
  have h := c6_replace 3 (Json.str "x")
    (Fields.cons "_id" (Json.str "y") (Fields.cons "name" (Json.str "bar") Fields.nil))
    [Json.obj (Fields.cons "_id" (Json.str "z") Fields.nil)]
  ⟨by rw [h.2.2.2.1 "name" (by decide) (by decide)]; decide,
   h.2.2.2.2.1 (Json.obj (Fields.cons "_id" (Json.str "z") Fields.nil)) (by decide) (by decide)⟩

/-- C7: `DELETE /:resource/:id` removes at most one document — the first
whose `_id` equals the identifier, so the collection shrinks by exactly the
number removed, which is 0 or 1 — and answers 204 when exactly one document
was removed, 404 when zero were (no document's `_id` matched), and 500 with
nothing removed on store error. -/
theorem c7_delete (id : Json) (coll : List Json) :
    deleteHandler false id coll = ⟨500, none, coll⟩ ∧
    (removeFirst (idMatches id) coll).2 ≤ 1 ∧
    (removeFirst (idMatches id) coll).1.length + (removeFirst (idMatches id) coll).2
      = coll.length ∧
    ((removeFirst (idMatches id) coll).2 = 0 ↔ ∀ d ∈ coll, idMatches id d = false) ∧
    deleteHandler true id coll =
      (if (removeFirst (idMatches id) coll).2 = 0 then ⟨404, none, coll⟩
       else ⟨204, none, (removeFirst (idMatches id) coll).1⟩) := by
  obtain ⟨h1, h2, h3⟩ := removeFirst_spec (idMatches id) coll
  refine ⟨rfl, h1, h2, h3, ?_⟩
  by_cases h : (removeFirst (idMatches id) coll).2 = 0 <;> simp [deleteHandler, h]

/-- C7 witness: deleting an existing identifier removes exactly that document
and answers 204; deleting an absent identifier removes nothing and answers
404. -/
theorem c7_witness :
    deleteHandler true (Json.str "x")
      [Json.obj (Fields.cons "_id" (Json.str "x") Fields.nil), Json.null]
      = ⟨204, none, [Json.null]⟩ ∧
    deleteHandler true (Json.str "w") [Json.null] = ⟨404, none, [Json.null]⟩ := by
  have h1 := (c7_delete (Json.str "x")
    [Json.obj (Fields.cons "_id" (Json.str "x") Fields.nil), Json.null]).2.2.2.2
  have h2 := (c7_delete (Json.str "w") [Json.null]).2.2.2.2
  constructor
  · rw [h1]; decide
  · rw [h2]; decide

/-- C8: every create request — plain or nested — and every replace request in
which no body is present is answered 400, and the collection is returned
unchanged: no store write happens. -/
theorem c8_missing_body (storeOk : Bool) (now : Nat) (m : String) (id : Json)
    (coll : List Json) :
    postHandler storeOk now none coll = ⟨400, none, coll⟩ ∧
    nestedPostHandler storeOk now m id none coll = ⟨400, none, coll⟩ ∧
    putHandler storeOk now id none coll = ⟨400, none, coll⟩ :=
  ⟨rfl, rfl, rfl⟩
